import Mathlib

/-!
Verification of the flood-fill engine (`skimage/morphology/_flood_fill.py`) and
the rank-filter wrappers (`skimage/filters/rank/generic.py`).

Images are modelled as total functions from 2-D integer coordinates to values,
restricted to a rectangular shape `m × n`.  Machine values are modelled as
integers together with a `DType` tag carrying the representable range: the
tolerance bounds are computed from `seed_value ± tolerance` with numpy scalar
semantics — for integer dtypes the arithmetic wraps modulo the dtype's range
(`np.uint8(250) + 10 = 4`), for float dtypes the sum is exact here and the
`min`/`max` clamps against the `iinfo`/`finfo` limits act on that result.

The compiled Cython kernels (`_flood_fill_cy.pyx`, `generic_cy.pyx`) and the
helpers of `_util.py` are not part of the source tree; where a definition
embeds one of them it is modelled from the specification and says so in its
doc comment.
-/

/-- A 2-D pixel coordinate `(row, column)`. -/
abbrev Pos : Type := ℤ × ℤ

/-- `validB m n p` holds when `p` lies inside an `m × n` image.  In the code
this corresponds to the flag grid's sentinel ring: positions outside the
image are pre-marked with flag `2` and rejected by the traversal. -/
def validB (m n : ℕ) (p : Pos) : Bool :=
  decide (0 ≤ p.1) && decide (p.1 < (m : ℤ)) &&
  decide (0 ≤ p.2) && decide (p.2 < (n : ℤ))

/-- All coordinates of an `m × n` image, as a finite set. -/
def gridF (m n : ℕ) : Finset Pos :=
  Finset.Ico (0 : ℤ) (m : ℤ) ×ˢ Finset.Ico (0 : ℤ) (n : ℤ)

/-- Value dtypes relevant to `flood`: the tag determines the representable
range used for the tolerance clamps (`np.finfo` / `np.iinfo`) and whether
the compiled kernel accepts the dtype.  `unsupportedOther` stands for any
further dtype rejected by the kernel's fused type list, per the spec's
"all other dtype mismatches propagate". -/
inductive DType where
  | uint8
  | uint16
  | int32
  | int64
  | float16
  | float32
  | float64
  | unsupportedOther
deriving DecidableEq

/-- Smallest representable value of the dtype (`iinfo`/`finfo` `.min`);
for the float dtypes this is the negated largest finite value. -/
def DType.minV : DType → ℤ
  | DType.uint8 => 0
  | DType.uint16 => 0
  | DType.int32 => -(2 ^ 31)
  | DType.int64 => -(2 ^ 63)
  | DType.float16 => -65504
  | DType.float32 => -((2 ^ 24 - 1) * 2 ^ 104)
  | DType.float64 => -((2 ^ 53 - 1) * 2 ^ 971)
  | DType.unsupportedOther => 0

/-- Largest representable value of the dtype (`iinfo`/`finfo` `.max`). -/
def DType.maxV : DType → ℤ
  | DType.uint8 => 255
  | DType.uint16 => 65535
  | DType.int32 => 2 ^ 31 - 1
  | DType.int64 => 2 ^ 63 - 1
  | DType.float16 => 65504
  | DType.float32 => (2 ^ 24 - 1) * 2 ^ 104
  | DType.float64 => (2 ^ 53 - 1) * 2 ^ 971
  | DType.unsupportedOther => 0

/-- Whether the dtype is a fixed-width integer one, whose numpy scalar
arithmetic wraps modulo the representable range. -/
def DType.isInt : DType → Bool
  | DType.uint8 => true
  | DType.uint16 => true
  | DType.int32 => true
  | DType.int64 => true
  | _ => false

/-- Numpy scalar arithmetic in the image dtype: an integer result is
reduced into the dtype's representable range by wrapping modulo its size
(two's-complement overflow, `np.uint8(250) + 10 = 4`); float results of
interest are representable and kept exact. -/
def DType.wrapVal (dt : DType) (v : ℤ) : ℤ :=
  if dt.isInt = true then (v - dt.minV) % (dt.maxV - dt.minV + 1) + dt.minV
  else v

/-- Modelled from the spec: the compiled kernels `_flood_fill_equal` and
`_flood_fill_tolerance` (absent from the source tree) accept the usual
integer and float dtypes but not the 2-byte float, whose tolerance
arithmetic the spec calls unreliable, nor other unlisted dtypes. -/
def DType.kernelSupported : DType → Bool
  | DType.float16 => false
  | DType.unsupportedOther => false
  | _ => true

/-- Message for a seed point outside numpy's accepted index range. -/
def indexErrorMsg : String := "IndexError: seed_point is out of bounds"

/-- Message raised by `flood` when the kernel rejects a float16 image. -/
def float16UpcastMsg : String :=
  "dtype of image is float16 which is not supported, try upcasting to float32"

/-- Message for any other dtype rejected by the kernel (re-raised as-is). -/
def typeErrorMsg : String :=
  "TypeError: image dtype is not supported by the flood fill kernel"

/-- Numpy basic indexing `image[seed_point]` as performed on line 243 of
`_flood_fill.py`: an index is accepted iff it lies in `[-extent, extent)`
on every axis, negative indices counting from the end; anything else
raises `IndexError`. -/
def numpyIndex (m n : ℕ) (img : Pos → ℤ) (sp : Pos) : Except String ℤ :=
  if -(m : ℤ) ≤ sp.1 ∧ sp.1 < (m : ℤ) ∧ -(n : ℤ) ≤ sp.2 ∧ sp.2 < (n : ℤ) then
    Except.ok (img (sp.1 % (m : ℤ), sp.2 % (n : ℤ)))
  else Except.error indexErrorMsg

/-- `seed_point = tuple(np.asarray(seed_point) % image.shape)` (line 244):
each coordinate reduced modulo the axis extent, with nonnegative result. -/
def wrapSeed (m n : ℕ) (sp : Pos) : Pos :=
  (sp.1 % (m : ℤ), sp.2 % (n : ℤ))

/-- `high_tol = min(max_value, seed_value + tolerance)` (line 273):
`seed_value` is a numpy scalar of the image dtype, so the addition is
performed in that dtype and wraps for integer dtypes before the clamp is
applied. -/
def highTol (dt : DType) (sv t : ℤ) : ℤ :=
  min dt.maxV (dt.wrapVal (sv + t))

/-- `low_tol = max(min_value, seed_value - tolerance)` (line 274):
the subtraction is performed in the image dtype and wraps for integer
dtypes before the clamp is applied. -/
def lowTol (dt : DType) (sv t : ℤ) : ℤ :=
  max dt.minV (dt.wrapVal (sv - t))

/-- The membership predicate applied to each candidate value: strict
equality with the seed value in equality mode, the inclusive clamped
interval `[low_tol, high_tol]` in tolerance mode. -/
def memPred (dt : DType) (sv : ℤ) (tol : Option ℤ) (v : ℤ) : Bool :=
  match tol with
  | none => decide (v = sv)
  | some t => decide (lowTol dt sv t ≤ v) && decide (v ≤ highTol dt sv t)

/-- The candidate test used by the traversal: inside the image (the
sentinel-ring border check) and value accepted by the membership
predicate. -/
def floodTest (m n : ℕ) (img : Pos → ℤ) (memv : ℤ → Bool) : Pos → Bool :=
  fun p => validB m n p && memv (img p)

/-- Modelled from the spec: the iterative stack-based traversal of
`_flood_fill_cy.pyx` (absent from the source tree).  The seed index is
pushed; popping a still-unvisited candidate that passes the border check
and the membership predicate marks it visited and pushes all of its
neighbor offsets applied to it.  The sentinel-ring border check is the
validity test inside `P`; `fuel` bounds the number of pops, and is chosen
large enough that the stack always drains (proved below). -/
def floodLoop (P : Pos → Bool) (offs : List Pos) :
    ℕ → List Pos → Finset Pos → Finset Pos
  | 0, _, vis => vis
  | _ + 1, [], vis => vis
  | fuel + 1, p :: rest, vis =>
    if P p = true ∧ p ∉ vis then
      floodLoop P offs fuel (offs.map (fun d => p + d) ++ rest) (insert p vis)
    else
      floodLoop P offs fuel rest vis

/-- Fuel sufficient to drain the stack: one initial pop plus, for every
cell that can ever be marked, one pop for each pushed neighbor. -/
def floodFuel (m n : ℕ) (offs : List Pos) : ℕ :=
  m * n * (offs.length + 1) + 1

/-- The flood traversal proper, on an `m × n` image with the given
membership test on values and the given neighbor offsets. -/
def floodCore (m n : ℕ) (img : Pos → ℤ) (memv : ℤ → Bool) (offs : List Pos)
    (seed : Pos) : Finset Pos :=
  floodLoop (floodTest m n img memv) offs (floodFuel m n offs) [seed] ∅

/-- The `flood` entry point of `_flood_fill.py`, for a 2-D image of shape
`m × n`.  Mirrors the source order: the zero-extent shortcut returns an
all-false mask first; the seed value is read with numpy indexing *before*
the seed is wrapped modulo the shape; the tolerance bounds feed the
membership predicate; a dtype the kernel rejects surfaces either the
float16 upcast message or the original `TypeError`.  The neighbor offset
list stands for the resolved footprint (`_resolve_neighborhood` and
`_offsets_to_raveled_neighbors` live outside the source tree); the
returned finite set is the set of `True` positions of the boolean mask. -/
def flood (m n : ℕ) (img : Pos → ℤ) (dt : DType) (sp : Pos) (offs : List Pos)
    (tol : Option ℤ) : Except String (Finset Pos) :=
  if m = 0 ∨ n = 0 then Except.ok ∅
  else
    match numpyIndex m n img sp with
    | Except.error e => Except.error e
    | Except.ok sv =>
      if DType.kernelSupported dt then
        Except.ok (floodCore m n img (memPred dt sv tol) offs (wrapSeed m n sp))
      else if dt = DType.float16 then Except.error float16UpcastMsg
      else Except.error typeErrorMsg

/-- Reads one pixel of the mask produced by `flood`: `none` when the call
raised, otherwise whether the mask is true at `p`. -/
def floodMaskAt (res : Except String (Finset Pos)) (p : Pos) : Option Bool :=
  res.toOption.map (fun s => decide (p ∈ s))

/-- Modelled from the spec: the default footprint of `flood` when neither
`footprint` nor `connectivity` is given is the fully connected one (all
adjacent pixels, diagonals included), i.e. the eight offsets of the 3 × 3
box around the center. -/
def fullConnectivityOffsets2D : List Pos :=
  [(-1, -1), (-1, 0), (-1, 1), (0, -1), (0, 1), (1, -1), (1, 0), (1, 1)]

/-- Builds an image function from a row-major list of rows; positions
outside the listed data read as `0`. -/
def gridOf (rows : List (List ℤ)) : Pos → ℤ :=
  fun p => (rows.getD p.1.toNat []).getD p.2.toNat 0

/-- The 4 × 7 example image of the `flood` docstring. -/
def grid1 : Pos → ℤ :=
  gridOf
    [[0, 0, 0, 0, 0, 0, 0],
     [0, 1, 1, 0, 2, 2, 0],
     [0, 1, 1, 0, 2, 2, 0],
     [1, 0, 0, 0, 0, 0, 3]]

/-- The mask the code actually produces for the tolerance example: every
cell except the 2-valued block and the isolated 3. -/
def expectedC1 : Finset Pos :=
  gridF 4 7 \ {((1 : ℤ), (4 : ℤ)), (1, 5), (2, 4), (2, 5), (3, 6)}

/-- Projects the error message out of a `flood` result, if any. -/
def floodErrAt (res : Except String (Finset Pos)) : Option String :=
  match res with
  | Except.error e => some e
  | Except.ok _ => none

/-- Reachability through the footprint adjacency: a position is reachable
when it is the seed or one offset away from a reachable position, every
position on the chain (the seed included) passing the candidate test `P`
(inside the image and value accepted by the membership predicate). -/
inductive Reach (P : Pos → Bool) (offs : List Pos) (seed : Pos) : Pos → Prop
  | base : P seed = true → Reach P offs seed seed
  | step {p d : Pos} : Reach P offs seed p → d ∈ offs → P (p + d) = true →
      Reach P offs seed (p + d)

/-!
Rank-filter model.  A footprint is a binary mask over a `fh × fw` index box;
its member offsets are translated so that the center index (half the extent
on each axis, moved by the explicit shift parameters, as in the source's
`noise_filter`) lands on the processed pixel.  The kernels of `generic_cy`
are absent from the source tree; the per-pixel defs below are modelled from
the spec's contract: each output cell is the statistic of the local
histogram of the window centered at that cell, clipped to image bounds and
intersected with the mask, an empty window producing `0`.
-/

/-- Member offsets of a footprint given as a binary mask on `fh × fw`. -/
def fpOffsets (fh fw : ℕ) (fp : Pos → Bool) : Finset Pos :=
  (gridF fh fw).filter (fun o => fp o = true)

/-- Number of 1-entries of the footprint. -/
def popcountF (fh fw : ℕ) (fp : Pos → Bool) : ℕ :=
  (fpOffsets fh fw fp).card

/-- The footprint center index: half the extent on each axis plus the
shift, `(shape[0] / 2 + shift_y, shape[1] / 2 + shift_x)`. -/
def fpCenter (fh fw : ℕ) (sy sx : ℤ) : Pos :=
  (((fh / 2 : ℕ) : ℤ) + sy, ((fw / 2 : ℕ) : ℤ) + sx)

/-- The image position covered by footprint index `o` when the window is
centered (via `c`) at pixel `p`. -/
def fpTarget (c p o : Pos) : Pos :=
  p + o - c

/-- Modelled from the spec: the footprint indices whose covered position
lies inside the image and passes the mask — the multiset underlying the
local histogram at `p`. -/
def windowF (m n fh fw : ℕ) (fp : Pos → Bool) (c : Pos) (mask : Pos → Bool)
    (p : Pos) : Finset Pos :=
  (fpOffsets fh fw fp).filter
    (fun o => validB m n (fpTarget c p o) && mask (fpTarget c p o))

/-- Modelled from the spec: `pop`, the total included population of the
window. -/
def popF (m n fh fw : ℕ) (fp : Pos → Bool) (c : Pos) (mask : Pos → Bool)
    (p : Pos) : ℕ :=
  (windowF m n fh fw fp c mask p).card

/-- Modelled from the spec: `maximum`, the largest value present in the
window, `0` for an empty window. -/
def maximumF (m n fh fw : ℕ) (fp : Pos → Bool) (c : Pos) (mask : Pos → Bool)
    (img : Pos → ℕ) (p : Pos) : ℕ :=
  (windowF m n fh fw fp c mask p).sup (fun o => img (fpTarget c p o))

/-- Modelled from the spec: `minimum`, the smallest value present in the
window, `0` for an empty window. -/
def minimumF (m n fh fw : ℕ) (fp : Pos → Bool) (c : Pos) (mask : Pos → Bool)
    (img : Pos → ℕ) (p : Pos) : ℕ :=
  if h : (windowF m n fh fw fp c mask p).Nonempty then
    (windowF m n fh fw fp c mask p).inf' h (fun o => img (fpTarget c p o))
  else 0

/-- Validation error of `check_nD`. -/
def checkNDMsg : String := "the image must be of the expected dimension"

/-- Validation error for a bool dtype (`dtype cannot be bool.`). -/
def boolDtypeMsg : String := "dtype cannot be bool."

/-- Validation error when footprint and image ranks differ. -/
def dimMismatchMsg : String :=
  "Image dimensions and neighborhood dimensions do not match"

/-- Validation error when the output buffer aliases the input. -/
def inPlaceMsg : String := "Cannot perform rank operation in place."

/-- The validation stage `_preprocess_input` of `generic.py` (shared shape
with `_handle_input_3D` via the expected rank `req`): checks, in source
order, the image rank, the bool-dtype ban, the footprint/image rank match,
and the input/output aliasing, failing before any output is produced. -/
def preprocessInput (req imgNdim fpNdim : ℕ) (imgBool outBool aliased : Bool) :
    Except String Unit :=
  if imgNdim ≠ req then Except.error checkNDMsg
  else if imgBool || outBool then Except.error boolDtypeMsg
  else if fpNdim ≠ imgNdim then Except.error dimMismatchMsg
  else if aliased then Except.error inPlaceMsg
  else Except.ok ()

/-- `_apply_scalar_per_pixel`: runs the validation stage, then hands image
and footprint to the compiled kernel `func`.  The second component models
the caller-visible output buffer after the call: on a validation error the
kernel is never invoked and the buffer still holds its previous contents
`out`. -/
def applyScalarPerPixel (func : (Pos → ℕ) → (Pos → Bool) → (Pos → ℕ))
    (req imgNdim fpNdim : ℕ) (imgBool outBool aliased : Bool)
    (img : Pos → ℕ) (fp : Pos → Bool) (out : Pos → ℕ) :
    Except String (Pos → ℕ) × (Pos → ℕ) :=
  match preprocessInput req imgNdim fpNdim imgBool outBool aliased with
  | Except.error e => (Except.error e, out)
  | Except.ok _ => (Except.ok (func img fp), func img fp)

/-!
Buffer model for the frame conditions of `flood` and `flood_fill`: a store
maps references to image contents; `alloc` returns a fresh reference, so a
write to an allocated copy can be told apart from a write to the input.
-/

/-- A store of image buffers addressed by natural-number references;
references below `next` are allocated. -/
structure Store where
  heap : ℕ → Pos → ℤ
  next : ℕ

/-- Contents of the buffer at reference `r`. -/
def Store.read (s : Store) (r : ℕ) : Pos → ℤ :=
  s.heap r

/-- Allocates a fresh buffer holding `v`, returning its reference. -/
def Store.alloc (s : Store) (v : Pos → ℤ) : ℕ × Store :=
  (s.next, ⟨fun x => if x = s.next then v else s.heap x, s.next + 1⟩)

/-- Overwrites the buffer at reference `r` with `v`. -/
def Store.write (s : Store) (r : ℕ) (v : Pos → ℤ) : Store :=
  ⟨fun x => if x = r then v else s.heap x, s.next⟩

/-- The constant value of the one-cell pad ring, `image.min()`: the least
value over the image, `0` for an empty image. -/
def padValue (m n : ℕ) (img : Pos → ℤ) : ℤ :=
  if h : (gridF m n).Nonempty then (gridF m n).inf' h img else 0

/-- `np.pad(image, 1, constant_values=image.min())` restricted to the
positions the traversal can see: in-image positions keep their value,
everything else reads as the pad constant. -/
def paddedCopy (m n : ℕ) (img : Pos → ℤ) : Pos → ℤ :=
  fun p => if validB m n p = true then img p else padValue m n img

/-- The flag grid at the end of the traversal: `1` in the region, `0`
elsewhere (the sentinel ring is outside the returned interior view). -/
def flagsImg (mask : Finset Pos) : Pos → ℤ :=
  fun p => if p ∈ mask then 1 else 0

/-- `flood` acting on a store: reads the input buffer `r`, allocates the
padded working copy and the flag grid as fresh buffers, and leaves every
previously allocated buffer untouched; the mask itself is computed by
`flood`.  On an error the store is returned as it was. -/
def floodSt (s : Store) (r : ℕ) (m n : ℕ) (dt : DType) (sp : Pos)
    (offs : List Pos) (tol : Option ℤ) :
    Except String (Finset Pos) × Store :=
  match flood m n (s.read r) dt sp offs tol with
  | Except.error e => (Except.error e, s)
  | Except.ok mask =>
    let a1 := s.alloc (paddedCopy m n (s.read r))
    let a2 := a1.2.alloc (flagsImg mask)
    (Except.ok mask, a2.2)

/-- `flood_fill` acting on a store: computes the mask, then either writes
the region in place (`in_place = true`, target is the input buffer) or
first copies the input into a fresh buffer (`image = image.copy()`) and
writes the region there, returning the target reference. -/
def floodFillSt (s : Store) (r : ℕ) (m n : ℕ) (dt : DType) (sp : Pos)
    (offs : List Pos) (tol : Option ℤ) (newVal : ℤ) (inPlace : Bool) :
    Except String ℕ × Store :=
  match floodSt s r m n dt sp offs tol with
  | (Except.error e, s1) => (Except.error e, s1)
  | (Except.ok mask, s1) =>
    let a := if inPlace then (r, s1) else s1.alloc (s1.read r)
    let s3 := a.2.write a.1 (fun p => if p ∈ mask then newVal else a.2.read a.1 p)
    (Except.ok a.1, s3)


/-- A one-buffer store used to exercise the frame conditions. -/
def exampleStore : Store :=
  ⟨fun _ => fun _ => 0, 1⟩

section
variable (P : Pos → Bool) (offs : List Pos) (seed : Pos)

lemma floodLoop_zero (stack : List Pos) (vis : Finset Pos) :
    floodLoop P offs 0 stack vis = vis := by
  rfl

lemma floodLoop_nil (fuel : ℕ) (vis : Finset Pos) :
    floodLoop P offs fuel [] vis = vis := by
  cases fuel <;> rfl

lemma floodLoop_cons (fuel : ℕ) (p : Pos) (rest : List Pos) (vis : Finset Pos) :
    floodLoop P offs (fuel + 1) (p :: rest) vis =
      if P p = true ∧ p ∉ vis then
        floodLoop P offs fuel (offs.map (fun d => p + d) ++ rest) (insert p vis)
      else floodLoop P offs fuel rest vis := by
  rfl

lemma floodLoop_mem_reach :
    ∀ (fuel : ℕ) (stack : List Pos) (vis : Finset Pos),
      (∀ q ∈ vis, Reach P offs seed q) →
      (∀ q ∈ stack, P q = true → Reach P offs seed q) →
      ∀ x ∈ floodLoop P offs fuel stack vis, Reach P offs seed x := by
  intro fuel
  induction fuel with
  | zero =>
    intro stack vis hv _ x hx
    rw [floodLoop_zero] at hx
    exact hv x hx
  | succ fuel ih =>
    intro stack vis hv hs x hx
    cases stack with
    | nil =>
      rw [floodLoop_nil] at hx
      exact hv x hx
    | cons p rest =>
      rw [floodLoop_cons] at hx
      by_cases hc : P p = true ∧ p ∉ vis
      · rw [if_pos hc] at hx
        have hreach : Reach P offs seed p := hs p (List.mem_cons_self p rest) hc.1
        refine ih _ _ ?_ ?_ x hx
        · intro q hq
          rcases Finset.mem_insert.mp hq with h | h
          · exact h ▸ hreach
          · exact hv q h
        · intro q hq hPq
          rcases List.mem_append.mp hq with h | h
          · rcases List.mem_map.mp h with ⟨d, hd, rfl⟩
            exact Reach.step hreach hd hPq
          · exact hs q (List.mem_cons_of_mem p h) hPq
      · rw [if_neg hc] at hx
        refine ih _ _ hv ?_ x hx
        intro q hq hPq
        exact hs q (List.mem_cons_of_mem p hq) hPq

end

section
variable (P : Pos → Bool) (offs : List Pos)

lemma floodLoop_closed (U : Finset Pos) (hPU : ∀ p, P p = true → p ∈ U) :
    ∀ (fuel : ℕ) (stack : List Pos) (vis : Finset Pos),
      vis ⊆ U →
      (U.card - vis.card) * (offs.length + 1) + stack.length ≤ fuel →
      (∀ p ∈ vis, ∀ d ∈ offs, P (p + d) = true → p + d ∈ vis ∨ p + d ∈ stack) →
      vis ⊆ floodLoop P offs fuel stack vis ∧
      (∀ q ∈ stack, P q = true → q ∈ floodLoop P offs fuel stack vis) ∧
      (∀ p ∈ floodLoop P offs fuel stack vis, ∀ d ∈ offs, P (p + d) = true →
        p + d ∈ floodLoop P offs fuel stack vis) := by
  intro fuel
  induction fuel with
  | zero =>
    intro stack vis _ hfuel hpend
    have hstack : stack = [] := by
      cases stack with
      | nil => rfl
      | cons p rest =>
        exfalso
        simp only [List.length_cons] at hfuel
        omega
    subst hstack
    rw [floodLoop_zero]
    refine ⟨Finset.Subset.refl vis, ?_, ?_⟩
    · intro q hq; simp at hq
    · intro p hp d hd hPd
      rcases hpend p hp d hd hPd with h | h
      · exact h
      · simp at h
  | succ fuel ih =>
    intro stack vis hvisU hfuel hpend
    cases stack with
    | nil =>
      rw [floodLoop_nil]
      refine ⟨Finset.Subset.refl vis, ?_, ?_⟩
      · intro q hq; simp at hq
      · intro p hp d hd hPd
        rcases hpend p hp d hd hPd with h | h
        · exact h
        · simp at h
    | cons p rest =>
      rw [floodLoop_cons]
      by_cases hc : P p = true ∧ p ∉ vis
      · rw [if_pos hc]
        have hpU : p ∈ U := hPU p hc.1
        have hins : insert p vis ⊆ U := Finset.insert_subset hpU hvisU
        have hcard : vis.card < U.card := by
          apply Finset.card_lt_card
          rw [Finset.ssubset_iff_of_subset hvisU]
          exact ⟨p, hpU, hc.2⟩
        have hcard' : (insert p vis).card = vis.card + 1 :=
          Finset.card_insert_of_not_mem hc.2
        have hfuel' :
            (U.card - (insert p vis).card) * (offs.length + 1) +
              (offs.map (fun d => p + d) ++ rest).length ≤ fuel := by
          rw [hcard']
          have h1 : U.card - (vis.card + 1) = (U.card - vis.card) - 1 := by omega
          rw [h1, Nat.sub_one_mul]
          have h2 : offs.length + 1 ≤ (U.card - vis.card) * (offs.length + 1) := by
            have : 0 < U.card - vis.card := by omega
            exact Nat.le_mul_of_pos_left (offs.length + 1) this
          simp only [List.length_append, List.length_map, List.length_cons] at hfuel ⊢
          omega
        have hpend' : ∀ q ∈ insert p vis, ∀ d ∈ offs, P (q + d) = true →
            q + d ∈ insert p vis ∨ q + d ∈ offs.map (fun d => p + d) ++ rest := by
          intro q hq d hd hPd
          rcases Finset.mem_insert.mp hq with rfl | hq'
          · right
            exact List.mem_append.mpr (Or.inl (List.mem_map.mpr ⟨d, hd, rfl⟩))
          · rcases hpend q hq' d hd hPd with h | h
            · exact Or.inl (Finset.mem_insert_of_mem h)
            · rcases List.mem_cons.mp h with h' | h'
              · exact Or.inl (h' ▸ Finset.mem_insert_self p vis)
              · exact Or.inr (List.mem_append.mpr (Or.inr h'))
        obtain ⟨ha, hb, hcl⟩ := ih _ _ hins hfuel' hpend'
        refine ⟨?_, ?_, hcl⟩
        · exact fun q hq => ha (Finset.mem_insert_of_mem hq)
        · intro q hq hPq
          rcases List.mem_cons.mp hq with rfl | hq'
          · exact ha (Finset.mem_insert_self q vis)
          · exact hb q (List.mem_append.mpr (Or.inr hq')) hPq
      · rw [if_neg hc]
        have hpmem : P p = true → p ∈ vis := by
          intro hp
          by_contra hnv
          exact hc ⟨hp, hnv⟩
        have hfuel' : (U.card - vis.card) * (offs.length + 1) + rest.length ≤ fuel := by
          simp only [List.length_cons] at hfuel
          omega
        have hpend' : ∀ q ∈ vis, ∀ d ∈ offs, P (q + d) = true →
            q + d ∈ vis ∨ q + d ∈ rest := by
          intro q hq d hd hPd
          rcases hpend q hq d hd hPd with h | h
          · exact Or.inl h
          · rcases List.mem_cons.mp h with h' | h'
            · left
              rw [h'] at hPd ⊢
              exact hpmem hPd
            · exact Or.inr h'
        obtain ⟨ha, hb, hcl⟩ := ih _ _ hvisU hfuel' hpend'
        refine ⟨ha, ?_, hcl⟩
        intro q hq hPq
        rcases List.mem_cons.mp hq with rfl | hq'
        · exact ha (hpmem hPq)
        · exact hb q hq' hPq

end

lemma mem_gridF {m n : ℕ} {p : Pos} :
    p ∈ gridF m n ↔ 0 ≤ p.1 ∧ p.1 < (m : ℤ) ∧ 0 ≤ p.2 ∧ p.2 < (n : ℤ) := by
  rw [gridF, Finset.mem_product, Finset.mem_Ico, Finset.mem_Ico]
  tauto

lemma validB_iff_mem_gridF {m n : ℕ} {p : Pos} :
    validB m n p = true ↔ p ∈ gridF m n := by
  simp only [validB, Bool.and_eq_true, decide_eq_true_eq, mem_gridF]
  tauto

lemma gridF_card (m n : ℕ) : (gridF m n).card = m * n := by
  simp [gridF, Finset.card_product, Int.card_Ico]

lemma floodCore_spec (m n : ℕ) (img : Pos → ℤ) (memv : ℤ → Bool)
    (offs : List Pos) (seed : Pos) (p : Pos) :
    p ∈ floodCore m n img memv offs seed ↔
      Reach (floodTest m n img memv) offs seed p := by
  constructor
  · intro hp
    refine floodLoop_mem_reach (floodTest m n img memv) offs seed _ _ _ ?_ ?_ p hp
    · intro q hq
      simp at hq
    · intro q hq hPq
      rcases List.mem_cons.mp hq with rfl | h
      · exact Reach.base hPq
      · simp at h
  · have hPU : ∀ q, floodTest m n img memv q = true → q ∈ gridF m n := by
      intro q hq
      rw [floodTest] at hq
      simp only [Bool.and_eq_true] at hq
      exact validB_iff_mem_gridF.mp hq.1
    have hfuel :
        ((gridF m n).card - (∅ : Finset Pos).card) * (offs.length + 1) +
          ([seed] : List Pos).length ≤ floodFuel m n offs := by
      rw [gridF_card]
      simp [floodFuel]
    obtain ⟨_, hb, hcl⟩ :=
      floodLoop_closed (floodTest m n img memv) offs (gridF m n) hPU
        (floodFuel m n offs) [seed] ∅ (Finset.empty_subset _) hfuel
        (by intro q hq; simp at hq)
    intro hr
    induction hr with
    | base h => exact hb seed (List.mem_cons_self seed []) h
    | step hr hd hP ih => exact hcl _ ih _ hd hP

lemma wrapSeed_eq_self {m n : ℕ} {sp : Pos} (h1 : 0 ≤ sp.1) (h2 : sp.1 < (m : ℤ))
    (h3 : 0 ≤ sp.2) (h4 : sp.2 < (n : ℤ)) : wrapSeed m n sp = sp := by
  rw [wrapSeed, Int.emod_eq_of_lt h1 h2, Int.emod_eq_of_lt h3 h4]

lemma flood_ok (m n : ℕ) (img : Pos → ℤ) (dt : DType) (sp : Pos)
    (offs : List Pos) (tol : Option ℤ)
    (hm : ¬(m = 0 ∨ n = 0))
    (hsp : -(m : ℤ) ≤ sp.1 ∧ sp.1 < (m : ℤ) ∧ -(n : ℤ) ≤ sp.2 ∧ sp.2 < (n : ℤ))
    (hdt : DType.kernelSupported dt = true) :
    flood m n img dt sp offs tol =
      Except.ok (floodCore m n img (memPred dt (img (wrapSeed m n sp)) tol)
        offs (wrapSeed m n sp)) := by
  rw [flood, if_neg hm, numpyIndex, if_pos hsp]
  simp only [hdt, if_true]
  rfl

lemma DType.minV_le_maxV (dt : DType) : dt.minV ≤ dt.maxV := by
  cases dt <;> norm_num [DType.minV, DType.maxV]

lemma DType.wrapVal_mem (dt : DType) (v : ℤ) (h : dt.isInt = true) :
    dt.minV ≤ dt.wrapVal v ∧ dt.wrapVal v ≤ dt.maxV := by
  rw [DType.wrapVal, if_pos h]
  have hle := dt.minV_le_maxV
  have hspan : (0 : ℤ) < dt.maxV - dt.minV + 1 := by omega
  have h1 := Int.emod_nonneg (v - dt.minV) (by omega : dt.maxV - dt.minV + 1 ≠ 0)
  have h2 := Int.emod_lt_of_pos (v - dt.minV) hspan
  omega

lemma DType.wrapVal_eq_self (dt : DType) (v : ℤ) (h1 : dt.minV ≤ v)
    (h2 : v ≤ dt.maxV) : dt.wrapVal v = v := by
  rw [DType.wrapVal]
  by_cases h : dt.isInt = true
  · rw [if_pos h, Int.emod_eq_of_lt (by omega) (by omega)]
    omega
  · rw [if_neg h]

lemma memPred_self (dt : DType) (sv : ℤ) (tol : Option ℤ)
    (htol : ∀ t, tol = some t →
      0 ≤ t ∧ dt.minV ≤ sv - t ∧ sv + t ≤ dt.maxV) :
    memPred dt sv tol sv = true := by
  cases tol with
  | none => simp [memPred]
  | some t =>
    obtain ⟨ht, hlo, hhi⟩ := htol t rfl
    simp only [memPred, lowTol, highTol, Bool.and_eq_true, decide_eq_true_eq]
    rw [dt.wrapVal_eq_self (sv - t) hlo (by omega),
        dt.wrapVal_eq_self (sv + t) (by omega) hhi]
    constructor
    · exact max_le (by omega) (by omega)
    · exact le_min (by omega) (by omega)

/-- Counterexample to claim C2 as stated: the claim's membership predicate
is the ideal interval `[seed_value - tolerance, seed_value + tolerance]`,
under which the seed position is always reachable, hence always true in
the mask.  But `seed_value + tolerance` is numpy scalar arithmetic in the
image dtype: on a 1 × 1 uint8 image holding 250 with `tolerance=10` the
sum wraps to 4, the program's interval is the empty `[240, 4]`, and the
mask is false at the seed itself. -/
theorem flood_ideal_interval_counterexample :
    floodMaskAt (flood 1 1 (fun _ => 250) DType.uint8 (0, 0)
      fullConnectivityOffsets2D (some 10)) (0, 0) = some false := by decide

/-- Claim C2 (amended): for an image with no zero-length axis and an
in-bounds seed point, `flood` succeeds and its mask is true exactly at the
positions reachable from the seed through a chain of footprint-adjacent
in-image positions whose values all pass the program's membership
predicate — equality with the seed value, or the clamped interval
`[low_tol, high_tol]` whose endpoints are `seed_value ± tolerance`
computed in the image dtype (wrapping for integer dtypes); in particular
the mask is contained in that reachable set.  The seed position itself is
in the mask in equality mode, and in tolerance mode whenever
`seed_value ± tolerance` stays inside the dtype's representable range
(`htol`), so that no wraparound empties the interval. -/
theorem flood_mask_iff_reachable (m n : ℕ) (img : Pos → ℤ) (dt : DType)
    (sp : Pos) (offs : List Pos) (tol : Option ℤ)
    (hm : 0 < m) (hn : 0 < n)
    (h1 : 0 ≤ sp.1) (h2 : sp.1 < (m : ℤ)) (h3 : 0 ≤ sp.2) (h4 : sp.2 < (n : ℤ))
    (hdt : DType.kernelSupported dt = true)
    (htol : ∀ t, tol = some t →
      0 ≤ t ∧ dt.minV ≤ img sp - t ∧ img sp + t ≤ dt.maxV) :
    ∃ R, flood m n img dt sp offs tol = Except.ok R ∧
      (∀ p, p ∈ R ↔
        Reach (floodTest m n img (memPred dt (img sp) tol)) offs sp p) ∧
      sp ∈ R := by
  have hw : wrapSeed m n sp = sp := wrapSeed_eq_self h1 h2 h3 h4
  have hok := flood_ok m n img dt sp offs tol
    (by omega)
    ⟨by omega, h2, by omega, h4⟩ hdt
  rw [hw] at hok
  refine ⟨_, hok, ?_, ?_⟩
  · intro p
    exact floodCore_spec m n img (memPred dt (img sp) tol) offs sp p
  · rw [floodCore_spec]
    apply Reach.base
    rw [floodTest]
    simp only [Bool.and_eq_true]
    refine ⟨?_, memPred_self dt (img sp) tol htol⟩
    rw [validB]
    simp only [Bool.and_eq_true, decide_eq_true_eq]
    exact ⟨⟨⟨h1, h2⟩, h3⟩, h4⟩

/-- Witness for C2 at a concrete instance. -/
theorem flood_mask_iff_reachable_witness :
    ∃ R, flood 1 1 (fun _ => 3) DType.uint8 (0, 0) [] (some 1) = Except.ok R ∧
      (∀ p, p ∈ R ↔
        Reach (floodTest 1 1 (fun _ => 3) (memPred DType.uint8 3 (some 1)))
          [] (0, 0) p) ∧
      ((0 : ℤ), (0 : ℤ)) ∈ R :=
  flood_mask_iff_reachable 1 1 (fun _ => 3) DType.uint8 (0, 0) [] (some 1)
    (by decide) (by decide) (by decide) (by decide) (by decide) (by decide)
    (by decide) (fun t ht => by cases ht; exact ⟨by decide, by decide, by decide⟩)

/-- Counterexample to claim C1 as stated: with `tolerance=1` from the
0-valued corner of the 4 × 7 docstring grid, the mask is *false* at
`(1, 4)`, a 2-valued cell that is not the isolated 3: membership is the
fixed interval `[seed - 1, seed + 1]`, so the value 2 is excluded and
tolerance does not chain. -/
theorem flood_tolerance_chain_counterexample :
    floodMaskAt (flood 4 7 grid1 DType.int64 (0, 0) fullConnectivityOffsets2D
      (some 1)) (1, 4) = some false := by decide

set_option maxRecDepth 40000 in
/-- Claim C1 (amended): flood fill with `tolerance=1` from the 0-valued
corner of the 4 × 7 example grid returns a mask that is true everywhere
except at the four 2-valued cells and at the isolated 3, because membership
is the fixed interval `[seed - 1, seed + 1] = [-1, 1]`, which admits the 0
and 1 values but not 2 or 3. -/
theorem flood_tolerance_example_mask :
    ∀ p ∈ gridF 4 7,
      floodMaskAt (flood 4 7 grid1 DType.int64 (0, 0) fullConnectivityOffsets2D
        (some 1)) p = some (decide (p ∈ expectedC1)) := by decide

/-- Counterexample to claim C3 as stated: on the 4 × 7 example grid the
seed `(4, 0)` is *not* reduced modulo the axis extent — the seed value is
read with numpy indexing before the modulo, so the call raises
`IndexError` instead of flooding from `(0, 0)`. -/
theorem flood_seed_modulo_counterexample :
    floodErrAt (flood 4 7 grid1 DType.int64 (4, 0) fullConnectivityOffsets2D
      none) = some indexErrorMsg := by decide

/-- Claim C3 (amended): `flood` accepts seed coordinates in
`[-extent, extent - 1]` on each axis; such a seed is reduced modulo the
axis extent (negative coordinates wrap) and the fill proceeds from the
wrapped position, i.e. the call is equivalent to calling `flood` at the
wrapped seed.  A coordinate outside that range raises `IndexError`,
because the seed value is read with numpy indexing before the modulo is
applied. -/
theorem flood_seed_policy (m n : ℕ) (img : Pos → ℤ) (dt : DType) (sp : Pos)
    (offs : List Pos) (tol : Option ℤ) (hm : 0 < m) (hn : 0 < n) :
    ((-(m : ℤ) ≤ sp.1 ∧ sp.1 < (m : ℤ) ∧ -(n : ℤ) ≤ sp.2 ∧ sp.2 < (n : ℤ)) →
      flood m n img dt sp offs tol =
        flood m n img dt (wrapSeed m n sp) offs tol) ∧
    ((sp.1 < -(m : ℤ) ∨ (m : ℤ) ≤ sp.1 ∨ sp.2 < -(n : ℤ) ∨ (n : ℤ) ≤ sp.2) →
      flood m n img dt sp offs tol = Except.error indexErrorMsg) := by
  have hmz : ¬(m = 0 ∨ n = 0) := by omega
  have hm' : ((m : ℤ)) ≠ 0 := by exact_mod_cast hm.ne'
  have hn' : ((n : ℤ)) ≠ 0 := by exact_mod_cast hn.ne'
  constructor
  · rintro ⟨h1, h2, h3, h4⟩
    have e1 : 0 ≤ sp.1 % (m : ℤ) := Int.emod_nonneg sp.1 hm'
    have e2 : sp.1 % (m : ℤ) < (m : ℤ) := Int.emod_lt_of_pos sp.1 (by exact_mod_cast hm)
    have e3 : 0 ≤ sp.2 % (n : ℤ) := Int.emod_nonneg sp.2 hn'
    have e4 : sp.2 % (n : ℤ) < (n : ℤ) := Int.emod_lt_of_pos sp.2 (by exact_mod_cast hn)
    have hA : numpyIndex m n img sp = Except.ok (img (wrapSeed m n sp)) := by
      rw [numpyIndex, if_pos ⟨h1, h2, h3, h4⟩]
      rfl
    have hC : wrapSeed m n (wrapSeed m n sp) = wrapSeed m n sp := by
      simp only [wrapSeed]
      rw [Int.emod_eq_of_lt e1 e2, Int.emod_eq_of_lt e3 e4]
    have hB : numpyIndex m n img (wrapSeed m n sp) =
        Except.ok (img (wrapSeed m n sp)) := by
      rw [numpyIndex]
      simp only [wrapSeed]
      rw [if_pos ⟨by omega, e2, by omega, e4⟩]
      rw [Int.emod_eq_of_lt e1 e2, Int.emod_eq_of_lt e3 e4]
    rw [flood, flood, if_neg hmz, if_neg hmz, hA, hB, hC]
  · intro hout
    rw [flood, if_neg hmz, numpyIndex, if_neg (by omega)]

/-- Witness for C3's amended theorem at a concrete instance: a negative
in-range seed wraps. -/
theorem flood_seed_policy_witness :
    (((-4 : ℤ) ≤ (-1 : ℤ) ∧ (-1 : ℤ) < (4 : ℤ) ∧ (-7 : ℤ) ≤ (-1 : ℤ) ∧
        (-1 : ℤ) < (7 : ℤ)) →
      flood 4 7 grid1 DType.int64 (-1, -1) fullConnectivityOffsets2D none =
        flood 4 7 grid1 DType.int64 (wrapSeed 4 7 (-1, -1))
          fullConnectivityOffsets2D none) ∧
    (((-1 : ℤ) < (-4 : ℤ) ∨ (4 : ℤ) ≤ (-1 : ℤ) ∨ (-1 : ℤ) < (-7 : ℤ) ∨
        (7 : ℤ) ≤ (-1 : ℤ)) →
      flood 4 7 grid1 DType.int64 (-1, -1) fullConnectivityOffsets2D none =
        Except.error indexErrorMsg) :=
  flood_seed_policy 4 7 grid1 DType.int64 (-1, -1) fullConnectivityOffsets2D
    none (by decide) (by decide)

/-- Counterexample to claim C4 as stated: the clamps do not saturate the
bounds, because `seed_value ± tolerance` is numpy scalar arithmetic in the
image dtype and wraps before the clamp is applied.  For uint8 seed 250
with tolerance 10 the program computes `high_tol = min(255, 4) = 4`, not
the claimed `min(255, 260) = 255`; for uint8 seed 0 with tolerance 10 it
computes `low_tol = max(0, 246) = 246`, not the claimed `max(0, -10) = 0`. -/
theorem flood_tolerance_saturation_counterexample :
    highTol DType.uint8 250 10 = 4 ∧ lowTol DType.uint8 0 10 = 246 ∧
    ¬(highTol DType.uint8 250 10 =
        min (DType.maxV DType.uint8) ((250 : ℤ) + 10)) ∧
    ¬(lowTol DType.uint8 0 10 =
        max (DType.minV DType.uint8) ((0 : ℤ) - 10)) := by decide

/-- Claim C4 (amended): the tolerance bounds are
`high_tol = min(dtype max, seed + tolerance)` and
`low_tol = max(dtype min, seed - tolerance)`, where `seed ± tolerance` is
numpy scalar arithmetic in the image dtype: for integer dtypes it wraps
modulo the representable range instead of saturating, so the clamps only
guarantee `low_tol ≥ dtype min` and `high_tol ≤ dtype max` (and, for
integer dtypes, that both bounds lie inside the representable range); the
bounds equal `seed ± tolerance` exactly whenever that value is
representable, and the membership predicate tests exactly the resulting
interval. -/
theorem flood_tolerance_bounds_wrap (dt : DType) (sv t : ℤ) :
    dt.minV ≤ lowTol dt sv t ∧ highTol dt sv t ≤ dt.maxV ∧
    (dt.isInt = true →
      dt.minV ≤ highTol dt sv t ∧ lowTol dt sv t ≤ dt.maxV) ∧
    (dt.minV ≤ sv + t → sv + t ≤ dt.maxV → highTol dt sv t = sv + t) ∧
    (dt.minV ≤ sv - t → sv - t ≤ dt.maxV → lowTol dt sv t = sv - t) ∧
    (∀ v, memPred dt sv (some t) v = true ↔
      lowTol dt sv t ≤ v ∧ v ≤ highTol dt sv t) := by
  refine ⟨le_max_left _ _, min_le_left _ _, ?_, ?_, ?_, ?_⟩
  · intro hInt
    obtain ⟨w1, w2⟩ := dt.wrapVal_mem (sv + t) hInt
    obtain ⟨w3, w4⟩ := dt.wrapVal_mem (sv - t) hInt
    constructor
    · rw [highTol]
      exact le_min dt.minV_le_maxV w1
    · rw [lowTol]
      exact max_le dt.minV_le_maxV w4
  · intro ha hb
    rw [highTol, dt.wrapVal_eq_self (sv + t) ha hb]
    exact min_eq_right hb
  · intro ha hb
    rw [lowTol, dt.wrapVal_eq_self (sv - t) ha hb]
    exact max_eq_right ha
  · intro v
    simp [memPred]

/-- Witness for C4's amended theorem at a concrete instance: uint8 seed
100 with tolerance 10, where no wraparound occurs and the bounds are
exact. -/
theorem flood_tolerance_bounds_wrap_witness :
    DType.minV DType.uint8 ≤ lowTol DType.uint8 100 10 ∧
    highTol DType.uint8 100 10 ≤ DType.maxV DType.uint8 ∧
    (DType.isInt DType.uint8 = true →
      DType.minV DType.uint8 ≤ highTol DType.uint8 100 10 ∧
      lowTol DType.uint8 100 10 ≤ DType.maxV DType.uint8) ∧
    (DType.minV DType.uint8 ≤ (100 : ℤ) + 10 →
      (100 : ℤ) + 10 ≤ DType.maxV DType.uint8 →
      highTol DType.uint8 100 10 = 100 + 10) ∧
    (DType.minV DType.uint8 ≤ (100 : ℤ) - 10 →
      (100 : ℤ) - 10 ≤ DType.maxV DType.uint8 →
      lowTol DType.uint8 100 10 = 100 - 10) ∧
    (∀ v, memPred DType.uint8 100 (some 10) v = true ↔
      lowTol DType.uint8 100 10 ≤ v ∧ v ≤ highTol DType.uint8 100 10) :=
  flood_tolerance_bounds_wrap DType.uint8 100 10

/-- Claim C5: for an image with a zero-length axis, `flood` returns the
all-false mask immediately — no traversal, no seed read, no error, for
every seed point, dtype (a kernel-unsupported one included) and
tolerance. -/
theorem flood_empty_axis (m n : ℕ) (img : Pos → ℤ) (dt : DType) (sp : Pos)
    (offs : List Pos) (tol : Option ℤ) (h : m = 0 ∨ n = 0) :
    flood m n img dt sp offs tol = Except.ok ∅ := by
  rw [flood, if_pos h]

/-- Witness for C5 at a concrete instance: a 0 × 3 image with an
out-of-range seed and a float16 dtype still succeeds with the empty
mask. -/
theorem flood_empty_axis_witness :
    flood 0 3 grid1 DType.float16 (5, 5) fullConnectivityOffsets2D (some 1) =
      Except.ok ∅ :=
  flood_empty_axis 0 3 grid1 DType.float16 (5, 5) fullConnectivityOffsets2D
    (some 1) (Or.inl rfl)

/-- Claim C6: calling `flood` with a tolerance on a float16 image raises
an error whose message suggests upcasting to float32, while any other
dtype the kernel rejects re-raises the underlying `TypeError`
unchanged. -/
theorem flood_unsupported_dtype_errors (m n : ℕ) (img : Pos → ℤ) (sp : Pos)
    (offs : List Pos) (t : ℤ) (hm : ¬(m = 0 ∨ n = 0))
    (hsp : -(m : ℤ) ≤ sp.1 ∧ sp.1 < (m : ℤ) ∧ -(n : ℤ) ≤ sp.2 ∧ sp.2 < (n : ℤ)) :
    flood m n img DType.float16 sp offs (some t) =
      Except.error float16UpcastMsg ∧
    flood m n img DType.unsupportedOther sp offs (some t) =
      Except.error typeErrorMsg := by
  constructor
  · rw [flood, if_neg hm, numpyIndex, if_pos hsp]
    rfl
  · rw [flood, if_neg hm, numpyIndex, if_pos hsp]
    rfl

/-- Witness for C6 at a concrete instance. -/
theorem flood_unsupported_dtype_errors_witness :
    flood 4 7 grid1 DType.float16 (0, 0) fullConnectivityOffsets2D (some 1) =
      Except.error float16UpcastMsg ∧
    flood 4 7 grid1 DType.unsupportedOther (0, 0) fullConnectivityOffsets2D
      (some 1) = Except.error typeErrorMsg :=
  flood_unsupported_dtype_errors 4 7 grid1 (0, 0) fullConnectivityOffsets2D 1
    (by decide) (by decide)

lemma fpCenter_target_self (fh fw : ℕ) (sy sx : ℤ) (p : Pos) :
    fpTarget (fpCenter fh fw sy sx) p (fpCenter fh fw sy sx) = p := by
  rw [fpTarget]
  exact add_sub_cancel_right p (fpCenter fh fw sy sx)

/-- Claim C7: for every image and every footprint that includes the
(shifted) center position, the rank filters are pointwise monotone:
`minimum(img, f) ≤ img ≤ maximum(img, f)` at every pixel (mask absent,
i.e. the whole image participates). -/
theorem rank_minimum_le_image_le_maximum (m n fh fw : ℕ) (img : Pos → ℕ)
    (fp : Pos → Bool) (sy sx : ℤ) (p : Pos)
    (hc : fpCenter fh fw sy sx ∈ fpOffsets fh fw fp)
    (hp : validB m n p = true) :
    minimumF m n fh fw fp (fpCenter fh fw sy sx) (fun _ => true) img p ≤ img p ∧
    img p ≤ maximumF m n fh fw fp (fpCenter fh fw sy sx) (fun _ => true) img p := by
  have hmemw : fpCenter fh fw sy sx ∈
      windowF m n fh fw fp (fpCenter fh fw sy sx) (fun _ => true) p := by
    rw [windowF, Finset.mem_filter]
    refine ⟨hc, ?_⟩
    rw [fpCenter_target_self]
    simp [hp]
  constructor
  · rw [minimumF]
    have hne : (windowF m n fh fw fp (fpCenter fh fw sy sx)
        (fun _ => true) p).Nonempty := ⟨_, hmemw⟩
    rw [dif_pos hne]
    have h2 := Finset.inf'_le (fun o => img (fpTarget (fpCenter fh fw sy sx) p o))
      hmemw
    simpa [fpCenter_target_self] using h2
  · rw [maximumF]
    refine le_trans ?_ (Finset.le_sup hmemw)
    simp [fpCenter_target_self]

/-- Witness for C7 at a concrete instance: a 1 × 1 image with the 3 × 3
all-ones footprint. -/
theorem rank_minimum_le_image_le_maximum_witness :
    minimumF 1 1 3 3 (fun _ => true) (fpCenter 3 3 0 0) (fun _ => true)
      (fun _ => 7) (0, 0) ≤ 7 ∧
    (7 : ℕ) ≤ maximumF 1 1 3 3 (fun _ => true) (fpCenter 3 3 0 0) (fun _ => true)
      (fun _ => 7) (0, 0) :=
  rank_minimum_le_image_le_maximum 1 1 3 3 (fun _ => 7) (fun _ => true) 0 0
    (0, 0) (by decide) (by decide)

/-- Claim C8: the `pop` filter is bounded by the number of 1-entries of the
footprint at every position and for every mask, and equals it exactly (no
mask) at any position where the window is not clipped by the image
border. -/
theorem rank_pop_le_popcount (m n fh fw : ℕ) (fp : Pos → Bool) (c : Pos)
    (mask : Pos → Bool) (p : Pos) :
    popF m n fh fw fp c mask p ≤ popcountF fh fw fp ∧
    ((∀ o ∈ fpOffsets fh fw fp, validB m n (fpTarget c p o) = true) →
      popF m n fh fw fp c (fun _ => true) p = popcountF fh fw fp) := by
  constructor
  · rw [popF, popcountF, windowF]
    exact Finset.card_filter_le _ _
  · intro hall
    rw [popF, popcountF, windowF]
    congr 1
    apply Finset.filter_true_of_mem
    intro o ho
    simp [hall o ho]

/-- Witness for C8 at a concrete instance: the 3 × 3 square footprint on a
5 × 5 image, at the center pixel, gives population 9. -/
theorem rank_pop_le_popcount_witness :
    popF 5 5 3 3 (fun _ => true) (fpCenter 3 3 0 0) (fun _ => true) (2, 2) ≤
      popcountF 3 3 (fun _ => true) ∧
    ((∀ o ∈ fpOffsets 3 3 (fun _ => true),
        validB 5 5 (fpTarget (fpCenter 3 3 0 0) (2, 2) o) = true) →
      popF 5 5 3 3 (fun _ => true) (fpCenter 3 3 0 0) (fun _ => true) (2, 2) =
        popcountF 3 3 (fun _ => true)) :=
  rank_pop_le_popcount 5 5 3 3 (fun _ => true) (fpCenter 3 3 0 0)
    (fun _ => true) (2, 2)

lemma preprocessInput_ok (req imgNdim fpNdim : ℕ)
    (imgBool outBool aliased : Bool)
    (h : preprocessInput req imgNdim fpNdim imgBool outBool aliased =
      Except.ok ()) :
    fpNdim = imgNdim ∧ aliased = false := by
  rw [preprocessInput] at h
  by_cases h1 : imgNdim ≠ req
  · rw [if_pos h1] at h
    exact absurd h (by simp)
  · rw [if_neg h1] at h
    by_cases h2 : (imgBool || outBool) = true
    · rw [if_pos h2] at h
      exact absurd h (by simp)
    · rw [if_neg h2] at h
      by_cases h3 : fpNdim ≠ imgNdim
      · rw [if_pos h3] at h
        exact absurd h (by simp)
      · rw [if_neg h3] at h
        by_cases h4 : aliased = true
        · rw [if_pos h4] at h
          exact absurd h (by simp)
        · rw [if_neg h4] at h
          exact ⟨by omega, by simpa using h4⟩

/-- Claim C9: a rank-filter call whose footprint rank differs from the
image rank, or whose output buffer aliases the input, fails during input
validation: the result is an error that does not depend on the compiled
kernel (no histogram work is possible), and the output buffer still holds
its previous contents (no partial write). -/
theorem rank_validation_fail_fast (req imgNdim fpNdim : ℕ)
    (imgBool outBool aliased : Bool)
    (h : fpNdim ≠ imgNdim ∨ aliased = true) :
    ∃ e, ∀ (func func' : (Pos → ℕ) → (Pos → Bool) → (Pos → ℕ))
      (img : Pos → ℕ) (fp : Pos → Bool) (out : Pos → ℕ),
      applyScalarPerPixel func req imgNdim fpNdim imgBool outBool aliased
        img fp out = (Except.error e, out) ∧
      applyScalarPerPixel func req imgNdim fpNdim imgBool outBool aliased
        img fp out =
      applyScalarPerPixel func' req imgNdim fpNdim imgBool outBool aliased
        img fp out := by
  rcases hpre : preprocessInput req imgNdim fpNdim imgBool outBool aliased with
    e | u
  · refine ⟨e, fun func func' img fp out => ?_⟩
    constructor
    · rw [applyScalarPerPixel, hpre]
    · rw [applyScalarPerPixel, hpre, applyScalarPerPixel, hpre]
  · exfalso
    cases u
    obtain ⟨hfp, hal⟩ :=
      preprocessInput_ok req imgNdim fpNdim imgBool outBool aliased hpre
    rcases h with h | h
    · exact h hfp
    · rw [hal] at h
      exact Bool.false_ne_true h

/-- Witness for C9 at a concrete instance: a 1-D footprint against a 2-D
image. -/
theorem rank_validation_fail_fast_witness :
    ∃ e, ∀ (func func' : (Pos → ℕ) → (Pos → Bool) → (Pos → ℕ))
      (img : Pos → ℕ) (fp : Pos → Bool) (out : Pos → ℕ),
      applyScalarPerPixel func 2 2 1 false false false img fp out =
        (Except.error e, out) ∧
      applyScalarPerPixel func 2 2 1 false false false img fp out =
      applyScalarPerPixel func' 2 2 1 false false false img fp out :=
  rank_validation_fail_fast 2 2 1 false false false (Or.inl (by decide))

lemma Store.read_alloc_of_lt (s : Store) (v : Pos → ℤ) (r : ℕ)
    (hr : r < s.next) : (s.alloc v).2.read r = s.read r := by
  rw [Store.alloc, Store.read, Store.read]
  simp only
  rw [if_neg (by omega)]

lemma Store.read_alloc_self (s : Store) (v : Pos → ℤ) :
    (s.alloc v).2.read (s.alloc v).1 = v := by
  rw [Store.alloc, Store.read]
  simp

lemma Store.alloc_next (s : Store) (v : Pos → ℤ) :
    (s.alloc v).2.next = s.next + 1 := rfl

lemma Store.alloc_fst (s : Store) (v : Pos → ℤ) :
    (s.alloc v).1 = s.next := rfl

lemma Store.read_write_ne (s : Store) (r : ℕ) (v : Pos → ℤ) (x : ℕ)
    (h : x ≠ r) : (s.write r v).read x = s.read x := by
  rw [Store.write, Store.read, Store.read]
  simp only
  rw [if_neg h]

lemma Store.read_write_self (s : Store) (r : ℕ) (v : Pos → ℤ) :
    (s.write r v).read r = v := by
  rw [Store.write, Store.read]
  simp

/-- Claim C10: `flood` never modifies its input buffer — it writes only
the freshly allocated padded working copy and flag grid — and
`flood_fill` with `in_place=False` writes the region into a fresh copy:
the returned buffer is distinct from the input, holds `new_value` exactly
on the mask and the original values elsewhere, and every element of the
input buffer is unchanged. -/
theorem flood_fill_frame (s : Store) (r : ℕ) (m n : ℕ) (dt : DType)
    (sp : Pos) (offs : List Pos) (tol : Option ℤ) (newVal : ℤ)
    (hr : r < s.next) :
    (floodSt s r m n dt sp offs tol).2.read r = s.read r ∧
    (floodFillSt s r m n dt sp offs tol newVal false).2.read r = s.read r ∧
    (∀ tgt s', floodFillSt s r m n dt sp offs tol newVal false =
        (Except.ok tgt, s') →
      tgt ≠ r ∧ ∃ mask, flood m n (s.read r) dt sp offs tol = Except.ok mask ∧
        ∀ p, s'.read tgt p = if p ∈ mask then newVal else s.read r p) := by
  rcases hfl : flood m n (s.read r) dt sp offs tol with e | mask
  · have hSt : floodSt s r m n dt sp offs tol = (Except.error e, s) := by
      rw [floodSt, hfl]
    have hFF : floodFillSt s r m n dt sp offs tol newVal false =
        (Except.error e, s) := by
      rw [floodFillSt, hSt]
    refine ⟨by rw [hSt], by rw [hFF], ?_⟩
    intro tgt s' heq
    rw [hFF] at heq
    exact absurd (congrArg Prod.fst heq) (by simp)
  · have hSt : floodSt s r m n dt sp offs tol =
        (Except.ok mask,
          ((s.alloc (paddedCopy m n (s.read r))).2.alloc (flagsImg mask)).2) := by
      rw [floodSt, hfl]
    set s2 := ((s.alloc (paddedCopy m n (s.read r))).2.alloc (flagsImg mask)).2
      with hs2def
    have h1 : r < (s.alloc (paddedCopy m n (s.read r))).2.next := by
      rw [Store.alloc_next]
      omega
    have hs2next : s2.next = s.next + 1 + 1 := by
      rw [hs2def, Store.alloc_next, Store.alloc_next]
    have hs2r : s2.read r = s.read r := by
      rw [hs2def, Store.read_alloc_of_lt _ _ _ h1, Store.read_alloc_of_lt _ _ _ hr]
    have hFF : floodFillSt s r m n dt sp offs tol newVal false =
        (Except.ok (s2.alloc (s2.read r)).1,
          (s2.alloc (s2.read r)).2.write (s2.alloc (s2.read r)).1
            (fun p => if p ∈ mask then newVal
              else (s2.alloc (s2.read r)).2.read (s2.alloc (s2.read r)).1 p)) := by
      rw [floodFillSt, hSt]
      rfl
    have htgtr : (s2.alloc (s2.read r)).1 ≠ r := by
      rw [Store.alloc_fst, hs2next]
      omega
    refine ⟨by rw [hSt]; exact hs2r, ?_, ?_⟩
    · rw [hFF]
      rw [Store.read_write_ne _ _ _ _ (Ne.symm htgtr)]
      rw [Store.read_alloc_of_lt _ _ _ (by rw [hs2next]; omega)]
      exact hs2r
    · intro tgt s' heq
      rw [hFF, Prod.mk.injEq] at heq
      obtain ⟨htgt, hs'⟩ := heq
      rw [Except.ok.injEq] at htgt
      subst htgt
      subst hs'
      refine ⟨htgtr, mask, rfl, ?_⟩
      intro p
      rw [Store.read_write_self]
      rw [Store.read_alloc_self, hs2r]


/-- Witness for C1's amended theorem at the corner pixel. -/
theorem flood_tolerance_example_mask_witness :
    floodMaskAt (flood 4 7 grid1 DType.int64 (0, 0) fullConnectivityOffsets2D
      (some 1)) (0, 0) = some (decide (((0 : ℤ), (0 : ℤ)) ∈ expectedC1)) :=
  flood_tolerance_example_mask (0, 0) (by decide)

/-- Witness for C10 at a concrete one-buffer store. -/
theorem flood_fill_frame_witness :
    (floodSt exampleStore 0 1 1 DType.uint8 (0, 0) [] none).2.read 0 =
      exampleStore.read 0 ∧
    (floodFillSt exampleStore 0 1 1 DType.uint8 (0, 0) [] none 5 false).2.read 0
      = exampleStore.read 0 ∧
    (∀ tgt s',
      floodFillSt exampleStore 0 1 1 DType.uint8 (0, 0) [] none 5 false =
        (Except.ok tgt, s') →
      tgt ≠ 0 ∧ ∃ mask,
        flood 1 1 (exampleStore.read 0) DType.uint8 (0, 0) [] none =
          Except.ok mask ∧
        ∀ p, s'.read tgt p = if p ∈ mask then 5 else exampleStore.read 0 p) :=
  flood_fill_frame exampleStore 0 1 1 DType.uint8 (0, 0) [] none 5 (by decide)
